import Mathlib

/-!
Verification of the remote-collection synchronization and presentation
pipeline of the repo-cleaner dashboard (src/src/components/Dashboard.tsx).

The embedding is shallow: the component's pure helpers become Lean
functions on lists of characters and records; the stateful handlers
(`fetchRepos`, `handleDeleteRepo`) become explicit state-transformers on a
`DashSt` record, with the network modelled as an explicit list of events
(responses or an abort signal) consumed by the sequential fetch loop.
JavaScript strings are modelled through their character lists; the
locale-sensitive `localeCompare` and the timestamp parse
`new Date(s).getTime()` are kept abstract as parameters (`JsEnv`), since the
code only feeds their integer results into comparators.
-/

/-- Character-class test for the regular-expression class `\s` used in the
link-header regex (restricted to the ASCII whitespace that actually occurs
in link headers). -/
def isJsWs (c : Char) : Bool :=
  c = ' ' || c = '\t' || c = '\n' || c = '\r' || c = '\x0b' || c = '\x0c'

/-- Both-ends whitespace trim on character lists; model of
`String.prototype.trim` as used in `searchQuery.trim()`. -/
def trimChars (l : List Char) : List Char :=
  ((l.dropWhile isJsWs).reverse.dropWhile isJsWs).reverse

/-- Lower-casing of a character list; model of `toLowerCase()` (the code
only relies on it for case-insensitive comparison of ordinary identifiers,
so the ASCII mapping `Char.toLower` suffices). -/
def lowerChars (l : List Char) : List Char :=
  l.map Char.toLower

/-- Substring test: `listContains nd hay` models `hay.includes(nd)` on
JavaScript strings (true iff `nd` occurs contiguously inside `hay`;
the empty needle is contained in everything). -/
def listContains (nd : List Char) : List Char → Bool
  | [] => nd.isEmpty
  | c :: t => nd.isPrefixOf (c :: t) || listContains nd t

/-- Model of `String.prototype.split(",")`: split at every comma, keeping
empty fragments, `[""]` on the empty string. -/
def splitOnComma : List Char → List (List Char)
  | [] => [[]]
  | c :: t =>
    match splitOnComma t with
    | [] => [[]]
    | h :: r => if c = ',' then [] :: h :: r else (c :: h) :: r

/-- Attempt of the link-header regular expression
`<([^>]+)>;\s*rel="([^"]+)"` anchored at the start of `l`; returns the two
capture groups (url, rel) on success.  The character classes exclude their
closing delimiter, so greedy matching is maximal-munch without
backtracking. -/
def matchEntryAt (l : List Char) : Option (List Char × List Char) :=
  match l with
  | '<' :: rest =>
    let url := rest.takeWhile (fun c => c ≠ '>')
    if url.isEmpty then none
    else
      match rest.dropWhile (fun c => c ≠ '>') with
      | '>' :: ';' :: rest2 =>
        (match rest2.dropWhile isJsWs with
         | 'r' :: 'e' :: 'l' :: '=' :: '"' :: rest3 =>
           let r := rest3.takeWhile (fun c => c ≠ '"')
           if r.isEmpty then none
           else
             match rest3.dropWhile (fun c => c ≠ '"') with
             | '"' :: _ => some (url, r)
             | _ => none
         | _ => none)
      | _ => none
  | _ => none

/-- Leftmost match of the link-header regular expression inside `l`:
model of `part.match(/<([^>]+)>;\s*rel="([^"]+)"/)`. -/
def findEntry : List Char → Option (List Char × List Char)
  | [] => none
  | c :: t =>
    match matchEntryAt (c :: t) with
    | some e => some e
    | none => findEntry t

/-- Loop body of `getNextUrlFromLink`: scan the comma-separated parts in
order; on the first part whose regex match has relation `next`, return its
url; parts whose match has another relation (or no match) are skipped. -/
def nextFromParts : List (List Char) → Option String
  | [] => none
  | p :: ps =>
    match findEntry p with
    | some (url, rel) =>
      if rel = "next".data then some (String.mk url) else nextFromParts ps
    | none => nextFromParts ps

/-- Model of `getNextUrlFromLink` (Dashboard.tsx lines 94-106): null header
gives null; otherwise split on commas and return the url of the first entry
whose relation is exactly `next`. -/
def getNextUrlFromLink : Option String → Option String
  | none => none
  | some h => nextFromParts (splitOnComma h.data)

/-- Owner record of a repository (the `RepoOwner` interface). -/
structure RepoOwner where
  login : String
  avatar_url : Option String
  html_url : Option String
deriving DecidableEq, Repr

/-- One collection item: the `Repository` interface of Dashboard.tsx.
`updated_at` stays a string as in the source; the sort comparator feeds it
through the abstract timestamp parse of `JsEnv`.  The source field
`private` is spelled `isPrivate` (`private` is a Lean keyword). -/
structure Repo where
  id : Nat
  name : String
  full_name : String
  description : Option String
  html_url : String
  stargazers_count : Nat
  forks_count : Nat
  language : Option String
  isPrivate : Bool
  owner : RepoOwner
  fork : Bool
  updated_at : String
deriving DecidableEq, Repr

/-- A notification recorded through `toast(...)`; `destructive` marks the
error variant. -/
structure Toast where
  title : String
  description : String
  destructive : Bool
deriving DecidableEq, Repr

/-- The `visibilityFilter` state: "all" | "public" | "private". -/
inductive VisFilter
  | all
  | pub
  | priv
deriving DecidableEq, Repr

/-- The `forkFilter` state: "all" | "source" | "forks". -/
inductive ForkFilter
  | all
  | source
  | forks
deriving DecidableEq, Repr

/-- The `sortBy` state: "name" | "updated" | "stars" | "forks". -/
inductive SortBy
  | name
  | updated
  | stars
  | forks
deriving DecidableEq, Repr

/-- The `sortOrder` state: "asc" | "desc". -/
inductive SortOrder
  | asc
  | desc
deriving DecidableEq, Repr

/-- The view-state of the dashboard: search text, the three filters, the
sort key and direction, and the 1-based current page index. -/
structure ViewState where
  searchQuery : String
  visibilityFilter : VisFilter
  forkFilter : ForkFilter
  languageFilter : String
  sortBy : SortBy
  sortOrder : SortOrder
  currentPage : Nat
deriving DecidableEq, Repr

/-- Abstract pieces of the JavaScript runtime the comparator uses:
`localeCompare` on names and `new Date(s).getTime()` on timestamps.  Both
return integers that the code only compares against zero or subtracts. -/
structure JsEnv where
  localeCompare : String → String → Int
  parseTime : String → Int

/-- Search predicate of the text filter (Dashboard.tsx lines 140-145):
case-insensitive substring match of the query against name, description and
language; a null field simply fails to match while the others are still
consulted (`repo.description?.toLowerCase().includes(q)` is falsy on null). -/
def matchesQuery (q : List Char) (r : Repo) : Bool :=
  listContains q (lowerChars r.name.data)
  || (match r.description with
      | some d => listContains q (lowerChars d.data)
      | none => false)
  || (match r.language with
      | some l => listContains q (lowerChars l.data)
      | none => false)

/-- The switch inside the sort comparator (lines 170-183). -/
def compareBy (env : JsEnv) (sb : SortBy) (a b : Repo) : Int :=
  match sb with
  | .name => env.localeCompare a.name b.name
  | .updated => env.parseTime a.updated_at - env.parseTime b.updated_at
  | .stars => (a.stargazers_count : Int) - (b.stargazers_count : Int)
  | .forks => (a.forks_count : Int) - (b.forks_count : Int)

/-- Full comparator passed to `items.sort` (line 184): the keyed comparison,
negated when the direction is descending. -/
def sortComparator (env : JsEnv) (sb : SortBy) (so : SortOrder) (a b : Repo) : Int :=
  match so with
  | .asc => compareBy env sb a b
  | .desc => -(compareBy env sb a b)

/-- Boolean `comparator a b ≤ 0` ordering used by the stable sort model. -/
def sortLe (env : JsEnv) (sb : SortBy) (so : SortOrder) (a b : Repo) : Bool :=
  sortComparator env sb so a b ≤ 0

/-- Insert `a` after every already-placed element `b` with `le b a`; the
building block of the stable sort. -/
def insertSorted {α : Type} (le : α → α → Bool) (a : α) : List α → List α
  | [] => [a]
  | b :: t => if le b a then b :: insertSorted le a t else a :: b :: t

/-- Stable sort by insertion, left to right: the model of
`Array.prototype.sort` (stable per ECMAScript 2019) under a consistent
comparator: equal-key elements keep their input order. -/
def stableSort {α : Type} (le : α → α → Bool) (l : List α) : List α :=
  l.foldl (fun acc x => insertSorted le x acc) []

/-- Steps 1-4 of `filteredRepos` (lines 134-165): text filter (applied only
when the trimmed lower-cased query is non-empty, as `if (q)`), then
visibility, fork and language filters in that order. -/
def applyFilters (repos : List Repo) (vs : ViewState) : List Repo :=
  let q := lowerChars (trimChars vs.searchQuery.data)
  let items := if q.isEmpty then repos else repos.filter (matchesQuery q)
  let items :=
    match vs.visibilityFilter with
    | .all => items
    | .pub => items.filter (fun r => !r.isPrivate)
    | .priv => items.filter (fun r => r.isPrivate)
  let items :=
    match vs.forkFilter with
    | .all => items
    | .source => items.filter (fun r => !r.fork)
    | .forks => items.filter (fun r => r.fork)
  let items :=
    if vs.languageFilter = "all" then items
    else items.filter (fun r => r.language == some vs.languageFilter)
  items

/-- Value of the `filteredRepos` memo (lines 134-188): the filter chain
followed by the comparator sort. -/
def filteredRepos (env : JsEnv) (repos : List Repo) (vs : ViewState) : List Repo :=
  stableSort (sortLe env vs.sortBy vs.sortOrder) (applyFilters repos vs)

/-- True when no filter step narrows the list, i.e. when every
`Array.prototype.filter` call is skipped.  In that case the local `items`
still aliases the `repos` state array when `items.sort` runs. -/
def derivesInPlace (vs : ViewState) : Bool :=
  (lowerChars (trimChars vs.searchQuery.data)).isEmpty
  && vs.visibilityFilter == .all
  && vs.forkFilter == .all
  && vs.languageFilter == "all"

/-- The `repos` state array as it stands after the `filteredRepos` memo has
been computed.  `Array.prototype.sort` sorts in place, so when no filter
produced a fresh array (`derivesInPlace`), the sort writes through the
alias and reorders the mirror itself; otherwise the mirror is untouched. -/
def mirrorAfterDerive (env : JsEnv) (repos : List Repo) (vs : ViewState) : List Repo :=
  if derivesInPlace vs then filteredRepos env repos vs else repos

/-- Reference pipeline written from the spec's words (section 4.3): the
text filter is a case-insensitive substring match of `searchText` itself
(the spec never trims), then visibility, derivation and language filters in
the fixed order, then the keyed comparator sort with ties keeping the order
the filters produced (stable sort). -/
def deriveSpec (env : JsEnv) (repos : List Repo) (vs : ViewState) : List Repo :=
  let afterText := repos.filter (matchesQuery (lowerChars vs.searchQuery.data))
  let afterVis :=
    match vs.visibilityFilter with
    | .all => afterText
    | .pub => afterText.filter (fun r => !r.isPrivate)
    | .priv => afterText.filter (fun r => r.isPrivate)
  let afterFork :=
    match vs.forkFilter with
    | .all => afterVis
    | .source => afterVis.filter (fun r => !r.fork)
    | .forks => afterVis.filter (fun r => r.fork)
  let afterLang :=
    if vs.languageFilter = "all" then afterFork
    else afterFork.filter (fun r => r.language == some vs.languageFilter)
  stableSort (sortLe env vs.sortBy vs.sortOrder) afterLang

/-- View state with the search text trimmed of surrounding whitespace; used
to phrase the amended refinement of the derive pipeline. -/
def vsTrim (vs : ViewState) : ViewState :=
  { vs with searchQuery := String.mk (trimChars vs.searchQuery.data) }

/-- The page size constant `REPOS_PER_PAGE`. -/
def REPOS_PER_PAGE : Nat := 12

/-- Exact ceiling division on naturals; the value of `Math.ceil(a / b)` for
natural operands. -/
def ceilDiv (a b : Nat) : Nat := (a + b - 1) / b

/-- The `totalPages` computation (lines 313-316):
`Math.max(1, Math.ceil(filteredRepos.length / REPOS_PER_PAGE))`. -/
def totalPagesOf (len : Nat) : Nat := max 1 (ceilDiv len REPOS_PER_PAGE)

/-- The `paginatedRepos` slice (lines 317-321):
`filteredRepos.slice(startIndex, startIndex + REPOS_PER_PAGE)` with
`startIndex = (currentPage - 1) * REPOS_PER_PAGE`. -/
def paginatedRepos (l : List Repo) (page : Nat) : List Repo :=
  (l.drop ((page - 1) * REPOS_PER_PAGE)).take REPOS_PER_PAGE

/-- The clamping effect (lines 194-201): recompute
`total = Math.ceil(filteredRepos.length / 12)` (without the `max 1`), pull
an out-of-range page down to `total` when `total > 0`, and reset to 1 when
the result set is empty. -/
def clampPage (len page : Nat) : Nat :=
  let total := ceilDiv len REPOS_PER_PAGE
  if page > total ∧ total > 0 then total
  else if total = 0 ∧ page ≠ 1 then 1
  else page

/-- One user change to a filter or sort criterion. -/
inductive Criterion
  | search (s : String)
  | vis (v : VisFilter)
  | fork (f : ForkFilter)
  | lang (l : String)
  | sortB (k : SortBy)
  | sortO (o : SortOrder)
deriving DecidableEq, Repr

/-- Effect of changing one criterion: the field is updated and the reset
effect (lines 190-192) fires, setting `currentPage` to 1. -/
def applyCriterion (vs : ViewState) : Criterion → ViewState
  | .search s => { vs with searchQuery := s, currentPage := 1 }
  | .vis v => { vs with visibilityFilter := v, currentPage := 1 }
  | .fork f => { vs with forkFilter := f, currentPage := 1 }
  | .lang l => { vs with languageFilter := l, currentPage := 1 }
  | .sortB k => { vs with sortBy := k, currentPage := 1 }
  | .sortO o => { vs with sortOrder := o, currentPage := 1 }

/-- Decoded body of a listing response: an array of items, or any non-array
JSON value. -/
inductive Body
  | arr (items : List Repo)
  | notArray
deriving DecidableEq, Repr

/-- One HTTP response of the listing endpoint as the loop observes it:
ok flag, status data for the error message, decoded body, and the `link`
continuation header. -/
structure Response where
  ok : Bool
  status : Nat
  statusText : String
  body : Body
  linkHeader : Option String
deriving DecidableEq, Repr

/-- One resolution of an awaited `fetch` inside the loop: either the abort
signal fired (the promise rejects with `AbortError`) or a response
arrived. -/
inductive Event
  | abort
  | resp (r : Response)
deriving DecidableEq, Repr

/-- Outcome of the paged fetch loop. -/
inductive LoopResult
  | done (repos : List Repo)
  | failed (msg : String)
  | aborted
deriving DecidableEq, Repr

/-- Error message thrown for a non-ok listing response (lines 247-251). -/
def fetchErrMsg (r : Response) : String :=
  "Failed to fetch repositories: " ++ toString r.status ++ " " ++ r.statusText

/-- Error message thrown for a non-array listing body (line 254). -/
def shapeErrMsg : String := "Unexpected response shape from GitHub API"

/-- The message produced by a failing page: the status message when the
response is non-ok (checked first), otherwise the shape message. -/
def fetchFailMsg (r : Response) : String :=
  if r.ok then shapeErrMsg else fetchErrMsg r

/-- The initial listing URL (line 237). -/
def reposListUrl : String :=
  "https://api.github.com/user/repos?per_page=100&sort=updated&type=owner"

/-- The `while (url)` loop of `fetchRepos` (lines 239-260), driven by the
scripted sequence of fetch resolutions: a null url ends the loop with the
accumulated items; otherwise one event is consumed — an abort raises
`AbortError`, a non-ok response or a non-array body raises an error, and an
ok array response appends its items and follows the `link` header.  `none`
means the script ran out before the loop settled (an environment that never
resolves a fetch, outside the claims' scope). -/
def fetchLoop (evs : List Event) (url : Option String) (acc : List Repo) : Option LoopResult :=
  match url with
  | none => some (.done acc)
  | some _ =>
    match evs with
    | [] => none
    | .abort :: _ => some .aborted
    | .resp r :: rest =>
      if r.ok then
        match r.body with
        | .notArray => some (.failed shapeErrMsg)
        | .arr items => fetchLoop rest (getNextUrlFromLink r.linkHeader) (acc ++ items)
      else some (.failed (fetchErrMsg r))

/-- Component state touched by the synchronizer and the mutation
coordinator: the mirror, the recorded notifications, the loading flag, the
pending deletion and its in-flight flag, and a ghost log of the remote
requests that were actually dispatched. -/
structure DashSt where
  repos : List Repo
  toasts : List Toast
  loading : Bool
  deleteRepo : Option Repo
  deleting : Bool
  requests : List String
deriving DecidableEq, Repr

/-- A destructive-variant toast. -/
def errorToast (title msg : String) : Toast := ⟨title, msg, true⟩

/-- The `fetchRepos` handler (lines 233-272) run to completion against a
scripted event sequence.  The `try`/`catch`/`finally` shape means: on a
completed loop the mirror is replaced wholesale and loading cleared; on an
`AbortError` the catch returns silently (loading still cleared by
`finally`); on any other error exactly one destructive toast is recorded
and loading cleared.  No exception escapes: every completed run returns a
state. -/
def fetchRepos (st : DashSt) (evs : List Event) : Option DashSt :=
  match fetchLoop evs (some reposListUrl) [] with
  | none => none
  | some (.done acc) => some { st with repos := acc, loading := false }
  | some .aborted => some { st with loading := false }
  | some (.failed m) =>
    some { st with toasts := st.toasts ++ [errorToast "Error fetching repositories" m],
                   loading := false }

/-- The array bodies carried by the scripted events, in order. -/
def pagesOf (evs : List Event) : List (List Repo) :=
  evs.filterMap fun e =>
    match e with
    | .resp r =>
      match r.body with
      | .arr items => some items
      | .notArray => none
    | .abort => none

/-- The mirror invariant: no two items share an id. -/
@[reducible] def idsNodup (l : List Repo) : Prop := (l.map Repo.id).Nodup

/-- Response of the delete endpoint: ok flag, status data, and
`jsonMessage = some m` exactly when the body parsed as JSON with a truthy
`message` field (the `body && body.message` test of line 292). -/
structure DelResponse where
  ok : Bool
  status : Nat
  statusText : String
  jsonMessage : Option String
deriving DecidableEq, Repr

/-- Base error message for a failed delete (line 289). -/
def delBaseMsg (r : DelResponse) : String :=
  "Failed to delete repository: " ++ toString r.status ++ " " ++ r.statusText

/-- Optional server-message suffix appended at line 292 (the separator
characters are the source file's literal bytes). -/
def delTail (r : DelResponse) : String :=
  match r.jsonMessage with
  | some m => " â€” " ++ m
  | none => ""

/-- Full message of the failure toast for a delete attempt. -/
def delErrMsg (r : DelResponse) : String := delBaseMsg r ++ delTail r

/-- The `handleDeleteRepo` handler (lines 274-311) run against the delete
response.  With no pending deletion it returns at once (line 275): no
request is dispatched and the state is untouched.  Otherwise the DELETE
request is dispatched; on ok every item with the pending id is filtered out
and a success toast recorded; on failure one destructive toast carrying the
status and optional server message is recorded; `finally` clears both
`deleting` and the pending deletion in all cases. -/
def handleDeleteRepo (st : DashSt) (resp : DelResponse) : DashSt :=
  match st.deleteRepo with
  | none => st
  | some dr =>
    let st1 := { st with
      deleting := true,
      requests := st.requests ++ ["DELETE https://api.github.com/repos/" ++ dr.full_name] }
    if resp.ok then
      { st1 with
        repos := st1.repos.filter (fun r => r.id != dr.id),
        toasts := st1.toasts ++ [⟨"Repository deleted", dr.name ++ " has been permanently deleted", false⟩],
        deleting := false,
        deleteRepo := none }
    else
      { st1 with
        toasts := st1.toasts ++ [errorToast "Error deleting repository" (delErrMsg resp)],
        deleting := false,
        deleteRepo := none }

/-- Owner fixture used by the concrete witnesses. -/
def ownerU : RepoOwner := ⟨"u", none, none⟩

/-- Concrete item named "a" with id 1. -/
def rA : Repo :=
  { id := 1, name := "a", full_name := "u/a", description := none,
    html_url := "", stargazers_count := 0, forks_count := 0,
    language := none, isPrivate := false, owner := ownerU,
    fork := false, updated_at := "" }

/-- Concrete item named "b" with id 2. -/
def rB : Repo := { rA with id := 2, name := "b", full_name := "u/b" }

/-- Lexicographic comparison of character lists by code point. -/
def cmpChars : List Char → List Char → Int
  | [], [] => 0
  | [], _ :: _ => -1
  | _ :: _, [] => 1
  | a :: as, b :: bs =>
    if a.toNat < b.toNat then -1
    else if b.toNat < a.toNat then 1
    else cmpChars as bs

/-- A concrete consistent `localeCompare`: plain lexicographic string
order, sufficient to instantiate the abstract environment at witnesses. -/
def strCmpInt (a b : String) : Int := cmpChars a.data b.data

/-- Concrete JavaScript environment for witnesses. -/
def env0 : JsEnv := ⟨strCmpInt, fun _ => 0⟩

/-- The neutral view state the component starts in: empty search, every
filter "all", sort by name ascending, page 1. -/
def vsNeutral : ViewState :=
  { searchQuery := "", visibilityFilter := .all, forkFilter := .all,
    languageFilter := "all", sortBy := .name, sortOrder := .asc,
    currentPage := 1 }

/-- A link header carrying a `next` relation, used by page fixtures. -/
def linkNext : String := "<https://api.github.com/user/repos?page=2>; rel=\"next\""

/-- An ok first page carrying item `rA` and a `next` continuation. -/
def page1resp : Response := ⟨true, 200, "OK", .arr [rA], some linkNext⟩

/-- An ok final page carrying item `rA` and no continuation. -/
def page2resp : Response := ⟨true, 200, "OK", .arr [rA], none⟩

/-- An ok final page carrying `rA` and `rB` and no continuation. -/
def pageABresp : Response := ⟨true, 200, "OK", .arr [rA, rB], none⟩

/-- A failing page: HTTP 403 with an empty body. -/
def resp403page : Response := ⟨false, 403, "Forbidden", .notArray, none⟩

/-- Initial dashboard state of a session: empty mirror, no toasts, loading,
no pending deletion. -/
def st0 : DashSt := ⟨[], [], true, none, false, []⟩

/-- A failed delete response: 403 with a server message. -/
def resp403 : DelResponse := ⟨false, 403, "Forbidden", some "Must have admin rights"⟩

/-- A state with two items mirrored and the deletion of `rA` pending. -/
def stPend : DashSt :=
  { repos := [rA, rB], toasts := [], loading := false,
    deleteRepo := some rA, deleting := false, requests := [] }

/-- The continuation header of the spec's cursor-following example. -/
def exHeader : String :=
  "<https://api.example.com/x?page=2>; rel=\"next\", <https://api.example.com/x?page=1>; rel=\"prev\""

/-- Every well-behaved page of a sync prefix: ok status, array body, and a
parseable `next` continuation (so the loop keeps going). -/
def goodResp (r : Response) : Bool :=
  r.ok
  && (match r.body with | .arr _ => true | .notArray => false)
  && (getNextUrlFromLink r.linkHeader).isSome

/-- The empty needle is a substring of everything, as with
`String.prototype.includes("")`. -/
theorem listContains_nil (hay : List Char) : listContains [] hay = true := by
  cases hay <;> rfl

/-- An empty query matches every item. -/
theorem matchesQuery_nil (r : Repo) : matchesQuery [] r = true := by
  simp [matchesQuery, listContains_nil]

/-- Filtering by the empty query keeps the list unchanged. -/
theorem filter_matchesQuery_nil (l : List Repo) : l.filter (matchesQuery []) = l :=
  List.filter_eq_self.mpr (fun a _ => by simp [matchesQuery_nil a])

/-- When no part of the header carries relation `next`, the scan over the
parts comes back empty. -/
theorem nextFromParts_eq_none (ps : List (List Char))
    (h : ∀ p ∈ ps, (findEntry p).map Prod.snd ≠ some "next".data) :
    nextFromParts ps = none := by
  induction ps with
  | nil => rfl
  | cons p ps ih =>
    have hp := h p (by simp)
    have hrest : nextFromParts ps = none := ih fun q hq => h q (by simp [hq])
    cases hfe : findEntry p with
    | none =>
      simp only [nextFromParts, hfe]
      exact hrest
    | some e =>
      obtain ⟨u, r⟩ := e
      have hr : r ≠ "next".data := by
        intro hr
        rw [hfe] at hp
        simp [hr] at hp
      simp only [nextFromParts, hfe, if_neg hr]
      exact hrest

/-- When the scan produces a url, some part's regex match is exactly a
`next` entry with that url. -/
theorem nextFromParts_eq_some (ps : List (List Char)) (url : String)
    (h : nextFromParts ps = some url) :
    ∃ p, p ∈ ps ∧ findEntry p = some (url.data, "next".data) := by
  induction ps with
  | nil => simp [nextFromParts] at h
  | cons p ps ih =>
    cases hfe : findEntry p with
    | none =>
      simp only [nextFromParts, hfe] at h
      obtain ⟨q, hq, hfq⟩ := ih h
      exact ⟨q, by simp [hq], hfq⟩
    | some e =>
      obtain ⟨u, r⟩ := e
      by_cases hr : r = "next".data
      · simp only [nextFromParts, hfe, if_pos hr] at h
        injection h with h2
        subst h2
        exact ⟨p, by simp, by rw [hfe, hr]⟩
      · simp only [nextFromParts, hfe, if_neg hr] at h
        obtain ⟨q, hq, hfq⟩ := ih h
        exact ⟨q, by simp [hq], hfq⟩

/-- C5: for every continuation header, the next-page extractor returns the
url of the first comma-separated entry whose regex match has relation
exactly `next` (soundness conjunct); a null header, a header none of whose
entries match with relation `next`, or an unparseable header yields null;
the example header yields the page-2 url; and a null extraction result
terminates the paged fetch loop (both at the loop head and right after an
ok page whose header has no `next`). -/
theorem C5_next_url_extraction :
    getNextUrlFromLink none = none
    ∧ getNextUrlFromLink (some exHeader) = some "https://api.example.com/x?page=2"
    ∧ (∀ evs acc, fetchLoop evs none acc = some (LoopResult.done acc))
    ∧ (∀ (r : Response) (items : List Repo) (rest : List Event) (u : String) (acc : List Repo),
        r.ok = true → r.body = .arr items → getNextUrlFromLink r.linkHeader = none →
        fetchLoop (Event.resp r :: rest) (some u) acc = some (LoopResult.done (acc ++ items)))
    ∧ (∀ h, (∀ p ∈ splitOnComma h.data, (findEntry p).map Prod.snd ≠ some "next".data) →
        getNextUrlFromLink (some h) = none)
    ∧ (∀ h url, getNextUrlFromLink (some h) = some url →
        ∃ p, p ∈ splitOnComma h.data ∧ findEntry p = some (url.data, "next".data)) := by
  refine ⟨rfl, by decide, fun evs acc => by unfold fetchLoop; rfl, ?_, ?_, ?_⟩
  · intro r items rest u acc hok hbody hnext
    simp only [fetchLoop, hok, hbody, hnext, if_pos]
  · intro h hno
    unfold getNextUrlFromLink
    exact nextFromParts_eq_none _ hno
  · intro h url hsome
    unfold getNextUrlFromLink at hsome
    exact nextFromParts_eq_some _ _ hsome

/-- Witness for C5: a concrete header with no `next` entry extracts to
null. -/
theorem C5_next_url_extraction_witness :
    getNextUrlFromLink (some "<https://api.example.com/x?page=1>; rel=\"prev\"") = none :=
  C5_next_url_extraction.2.2.2.2.1 "<https://api.example.com/x?page=1>; rel=\"prev\"" (by decide)

/-- C1 (code bug): deriving the visible result is claimed to leave the
mirror untouched, but with the default neutral view state no filter step
allocates a fresh array, `items` still aliases the `repos` state array, and
the in-place `Array.prototype.sort` reorders the mirror itself.  Evaluating
the model at the failing input: the mirror `[rB, rA]` reads `[rA, rB]`
after one derivation. -/
theorem C1_derive_mutates_mirror :
    mirrorAfterDerive env0 [rB, rA] vsNeutral = [rA, rB]
    ∧ mirrorAfterDerive env0 [rB, rA] vsNeutral ≠ [rB, rA] := by
  constructor <;> decide

/-- C10: confirming a deletion while none is pending is a complete no-op:
the guard at line 275 returns before the request is built, so the state —
mirror, toasts, pending deletion and the dispatched-request log alike — is
exactly unchanged. -/
theorem C10_confirm_without_pending_noop (st : DashSt) (resp : DelResponse)
    (h : st.deleteRepo = none) :
    handleDeleteRepo st resp = st := by
  unfold handleDeleteRepo
  rw [h]

/-- Witness for C10 at the initial state. -/
theorem C10_confirm_without_pending_noop_witness :
    handleDeleteRepo st0 resp403 = st0 :=
  C10_confirm_without_pending_noop st0 resp403 rfl

/-- Appending strings concatenates their character data. -/
theorem data_append (s t : String) : (s ++ t).data = s.data ++ t.data := rfl

/-- Removing the items with a given id from a list holding exactly one such
item shrinks the length by one. -/
theorem length_filter_ne_of_count_one (l : List Repo) (i : Nat)
    (h : l.countP (fun r => r.id == i) = 1) :
    (l.filter (fun r => r.id != i)).length + 1 = l.length := by
  induction l with
  | nil => simp at h
  | cons a t ih =>
    by_cases hp : a.id = i
    · have h0 : t.countP (fun r => r.id == i) = 0 := by
        simpa [List.countP_cons, hp] using h
      have hfil : t.filter (fun r => r.id != i) = t := by
        refine List.filter_eq_self.mpr fun r hr => ?_
        have := List.countP_eq_zero.mp h0 r hr
        simpa using this
      simp [List.filter_cons, hp, hfil]
    · have h1 : t.countP (fun r => r.id == i) = 1 := by
        simpa [List.countP_cons, hp] using h
      have ht := ih h1
      have hkeep : (a.id != i) = true := by simpa using hp
      simp [List.filter_cons, hkeep]
      omega

/-- C2: with a deletion of `dr` pending, settling the delete request
reconciles state as specified.  On a 2xx response the mirror is the prior
mirror with exactly the items of id `dr.id` removed (size N-1 when the id
occurred once, and no item of that id remains) and the pending deletion is
cleared.  On a non-2xx response the mirror is unchanged, exactly one
failure toast is recorded whose message carries the status code and — when
present — the server message, and the coordinator returns to idle. -/
theorem C2_delete_settlement (st : DashSt) (dr : Repo) (resp : DelResponse)
    (hpend : st.deleteRepo = some dr) :
    (resp.ok = true →
      (handleDeleteRepo st resp).repos = st.repos.filter (fun r => r.id != dr.id)
      ∧ (∀ r ∈ (handleDeleteRepo st resp).repos, r.id ≠ dr.id)
      ∧ (st.repos.countP (fun r => r.id == dr.id) = 1 →
          (handleDeleteRepo st resp).repos.length + 1 = st.repos.length)
      ∧ (handleDeleteRepo st resp).deleteRepo = none
      ∧ (handleDeleteRepo st resp).deleting = false)
    ∧ (resp.ok = false →
      (handleDeleteRepo st resp).repos = st.repos
      ∧ (handleDeleteRepo st resp).toasts
          = st.toasts ++ [errorToast "Error deleting repository" (delErrMsg resp)]
      ∧ (∃ s t, s ++ (toString resp.status).data ++ t = (delErrMsg resp).data)
      ∧ (∀ m, resp.jsonMessage = some m → ∃ s, s ++ m.data = (delErrMsg resp).data)
      ∧ (handleDeleteRepo st resp).deleteRepo = none
      ∧ (handleDeleteRepo st resp).deleting = false) := by
  constructor
  · intro hok
    have hrepos : (handleDeleteRepo st resp).repos
        = st.repos.filter (fun r => r.id != dr.id) := by
      unfold handleDeleteRepo
      rw [hpend]
      simp [hok]
    refine ⟨hrepos, ?_, ?_, ?_, ?_⟩
    · intro r hr
      rw [hrepos] at hr
      have := (List.mem_filter.mp hr).2
      simpa using this
    · intro hcount
      rw [hrepos]
      exact length_filter_ne_of_count_one st.repos dr.id hcount
    · unfold handleDeleteRepo
      rw [hpend]
      simp [hok]
    · unfold handleDeleteRepo
      rw [hpend]
      simp [hok]
  · intro hok
    refine ⟨?_, ?_, ?_, ?_, ?_, ?_⟩
    · unfold handleDeleteRepo
      rw [hpend]
      simp [hok]
    · unfold handleDeleteRepo
      rw [hpend]
      simp [hok]
    · refine ⟨"Failed to delete repository: ".data,
        (" " ++ resp.statusText ++ delTail resp).data, ?_⟩
      simp [delErrMsg, delBaseMsg, data_append, List.append_assoc]
    · intro m hm
      refine ⟨(delBaseMsg resp ++ " â€” ").data, ?_⟩
      simp [delErrMsg, delTail, hm, data_append, List.append_assoc]
    · unfold handleDeleteRepo
      rw [hpend]
      simp [hok]
    · unfold handleDeleteRepo
      rw [hpend]
      simp [hok]

/-- Witness for C2: the concrete pending deletion of `rA` settled by a 403
leaves the mirror unchanged and records exactly one failure toast. -/
theorem C2_delete_settlement_witness :
    (handleDeleteRepo stPend resp403).repos = stPend.repos
    ∧ (handleDeleteRepo stPend resp403).toasts
        = stPend.toasts ++ [errorToast "Error deleting repository" (delErrMsg resp403)]
    ∧ (handleDeleteRepo stPend resp403).deleteRepo = none := by
  have h := (C2_delete_settlement stPend rA resp403 rfl).2 rfl
  exact ⟨h.1, h.2.1, h.2.2.2.2.1⟩

/-- A well-behaved response contributes its items and a live continuation:
destructure the `goodResp` conjunction. -/
theorem goodResp_destruct (r : Response) (h : goodResp r = true) :
    r.ok = true ∧ (∃ items, r.body = .arr items)
      ∧ ∃ u, getNextUrlFromLink r.linkHeader = some u := by
  unfold goodResp at h
  refine ⟨?_, ?_, ?_⟩
  · cases hok : r.ok
    · rw [hok] at h
      simp at h
    · rfl
  · cases hb : r.body with
    | arr items => exact ⟨items, rfl⟩
    | notArray =>
      rw [hb] at h
      simp at h
  · cases hn : getNextUrlFromLink r.linkHeader with
    | none =>
      rw [hn] at h
      simp at h
    | some u => exact ⟨u, rfl⟩

/-- After any run of well-behaved pages, a failing page settles the loop
with the failure message of that page, no matter what events follow. -/
theorem fetchLoop_fail_after_good (bad : Response)
    (hbad : bad.ok = false ∨ bad.body = .notArray) :
    ∀ (good : List Response), (∀ r ∈ good, goodResp r = true) →
    ∀ (rest : List Event) (u : String) (acc : List Repo),
      fetchLoop (good.map Event.resp ++ Event.resp bad :: rest) (some u) acc
        = some (.failed (fetchFailMsg bad)) := by
  intro good
  induction good with
  | nil =>
    intro _ rest u acc
    cases hok : bad.ok with
    | false => simp [fetchLoop, hok, fetchFailMsg]
    | true =>
      have hbody : bad.body = .notArray := by
        rcases hbad with h | h
        · rw [hok] at h
          cases h
        · exact h
      simp [fetchLoop, hok, hbody, fetchFailMsg]
  | cons r good ih =>
    intro hgood rest u acc
    obtain ⟨hok, ⟨items, hbody⟩, ⟨u2, hnext⟩⟩ :=
      goodResp_destruct r (hgood r (by simp))
    have hrest : ∀ q ∈ good, goodResp q = true := fun q hq => hgood q (by simp [hq])
    simp only [List.map_cons, List.cons_append, fetchLoop, hok, hbody, hnext, if_pos]
    exact ih hrest rest u2 (acc ++ items)

/-- After any run of well-behaved pages, an abort settles the loop
silently, no matter what events follow. -/
theorem fetchLoop_abort_after_good :
    ∀ (good : List Response), (∀ r ∈ good, goodResp r = true) →
    ∀ (rest : List Event) (u : String) (acc : List Repo),
      fetchLoop (good.map Event.resp ++ Event.abort :: rest) (some u) acc
        = some .aborted := by
  intro good
  induction good with
  | nil =>
    intro _ rest u acc
    simp [fetchLoop]
  | cons r good ih =>
    intro hgood rest u acc
    obtain ⟨hok, ⟨items, hbody⟩, ⟨u2, hnext⟩⟩ :=
      goodResp_destruct r (hgood r (by simp))
    have hrest : ∀ q ∈ good, goodResp q = true := fun q hq => hgood q (by simp [hq])
    simp only [List.map_cons, List.cons_append, fetchLoop, hok, hbody, hnext, if_pos]
    exact ih hrest rest u2 (acc ++ items)

/-- C3: a sync attempt whose pages are well-behaved up to a page that
fails (non-success status, or a body that is not an array) stops at that
page — the result does not depend on the events that would have followed —
leaves the mirror exactly as it was before the sync, records exactly one
error toast for the whole attempt, and completes as a state (the error is
caught at the handler boundary, never thrown past it). -/
theorem C3_sync_failure_atomic (st : DashSt) (good : List Response)
    (bad : Response) (rest : List Event)
    (hgood : ∀ r ∈ good, goodResp r = true)
    (hbad : bad.ok = false ∨ bad.body = .notArray) :
    fetchRepos st (good.map Event.resp ++ Event.resp bad :: rest)
      = some { st with
          toasts := st.toasts ++ [errorToast "Error fetching repositories" (fetchFailMsg bad)],
          loading := false } := by
  unfold fetchRepos
  rw [fetchLoop_fail_after_good bad hbad good hgood rest reposListUrl []]

/-- Witness for C3: one good page then a 403 page, at the initial state. -/
theorem C3_sync_failure_atomic_witness :
    fetchRepos st0 ([page1resp].map Event.resp ++ Event.resp resp403page :: [])
      = some { st0 with
          toasts := st0.toasts
            ++ [errorToast "Error fetching repositories" (fetchFailMsg resp403page)],
          loading := false } :=
  C3_sync_failure_atomic st0 [page1resp] resp403page [] (by decide) (Or.inl rfl)

/-- C4: a sync attempt cancelled at any point of the loop — after any run
of well-behaved pages — terminates silently: no toast is recorded, the
mirror keeps exactly its pre-sync value, and only the loading flag is
cleared. -/
theorem C4_sync_cancellation_silent (st : DashSt) (good : List Response)
    (rest : List Event)
    (hgood : ∀ r ∈ good, goodResp r = true) :
    fetchRepos st (good.map Event.resp ++ Event.abort :: rest)
      = some { st with loading := false } := by
  unfold fetchRepos
  rw [fetchLoop_abort_after_good good hgood rest reposListUrl []]

/-- Witness for C4: cancellation after page 1 and before page 2, on the
first load (empty mirror). -/
theorem C4_sync_cancellation_silent_witness :
    fetchRepos st0 ([page1resp].map Event.resp ++ Event.abort :: [])
      = some { st0 with loading := false } :=
  C4_sync_cancellation_silent st0 [page1resp] [] (by decide)

/-- A completed loop returns the accumulator extended by an initial portion
of the concatenation of the array bodies scripted in the events. -/
theorem fetchLoop_done_initial :
    ∀ (evs : List Event) (url : Option String) (acc res : List Repo),
      fetchLoop evs url acc = some (.done res) →
      ∃ t s, res = acc ++ t ∧ t ++ s = (pagesOf evs).flatten := by
  intro evs
  induction evs with
  | nil =>
    intro url acc res h
    cases url with
    | none =>
      simp only [fetchLoop] at h
      cases h
      exact ⟨[], [], by simp, by simp [pagesOf]⟩
    | some u => simp [fetchLoop] at h
  | cons e evs ih =>
    intro url acc res h
    cases url with
    | none =>
      simp only [fetchLoop] at h
      cases h
      exact ⟨[], (pagesOf (e :: evs)).flatten, by simp, by simp⟩
    | some u =>
      cases e with
      | abort => simp [fetchLoop] at h
      | resp r =>
        cases hok : r.ok with
        | false => simp [fetchLoop, hok] at h
        | true =>
          cases hbody : r.body with
          | notArray => simp [fetchLoop, hok, hbody] at h
          | arr items =>
            simp only [fetchLoop, hok, hbody, if_pos] at h
            obtain ⟨t2, s2, hres, hjoin⟩ := ih _ _ _ h
            refine ⟨items ++ t2, s2, by rw [hres, List.append_assoc], ?_⟩
            have hp : pagesOf (Event.resp r :: evs) = items :: pagesOf evs := by
              simp [pagesOf, hbody]
            rw [hp, List.flatten_cons, List.append_assoc, hjoin]

/-- C9 (amended): the no-duplicate-id invariant holds in every reachable
mirror provided the remote pages themselves never repeat an id: the initial
mirror is empty; a completed sync installs an initial portion of the
concatenation of the fetched pages, which is duplicate-free whenever that
whole concatenation is (and a failed or cancelled sync keeps the previous
mirror); and a settled deletion only removes items. -/
theorem C9_nodup_invariant :
    idsNodup ([] : List Repo)
    ∧ (∀ (st : DashSt) (evs : List Event) (st' : DashSt),
        idsNodup (pagesOf evs).flatten → idsNodup st.repos →
        fetchRepos st evs = some st' → idsNodup st'.repos)
    ∧ (∀ (st : DashSt) (resp : DelResponse),
        idsNodup st.repos → idsNodup (handleDeleteRepo st resp).repos) := by
  refine ⟨by simp [idsNodup], ?_, ?_⟩
  · intro st evs st' hjoin hst h
    unfold fetchRepos at h
    cases hl : fetchLoop evs (some reposListUrl) [] with
    | none =>
      rw [hl] at h
      cases h
    | some lr =>
      rw [hl] at h
      cases lr with
      | done acc =>
        cases h
        obtain ⟨t, s, hres, hjoin2⟩ := fetchLoop_done_initial evs _ _ _ hl
        have hsub : List.Sublist acc ((pagesOf evs).flatten) := by
          rw [hres, ← hjoin2, List.nil_append]
          exact List.sublist_append_left t s
        exact List.Nodup.sublist (hsub.map Repo.id) hjoin
      | failed m =>
        cases h
        exact hst
      | aborted =>
        cases h
        exact hst
  · intro st resp hst
    unfold handleDeleteRepo
    cases hd : st.deleteRepo with
    | none => exact hst
    | some dr =>
      cases hok : resp.ok with
      | true =>
        simp only [hok, if_pos]
        have hsub : List.Sublist (st.repos.filter (fun r => r.id != dr.id)) st.repos :=
          List.filter_sublist st.repos
        exact List.Nodup.sublist (hsub.map Repo.id) hst
      | false =>
        simp only [hok]
        exact hst

/-- Witness for C9 (amended): one duplicate-free page installs a
duplicate-free mirror. -/
theorem C9_nodup_invariant_witness :
    idsNodup (DashSt.repos { st0 with repos := [rA, rB], loading := false }) :=
  C9_nodup_invariant.2.1 st0 [Event.resp pageABresp]
    { st0 with repos := [rA, rB], loading := false }
    (by decide) (by decide) (by decide)

/-- Counterexample for C9 as stated: a completed sync whose two pages both
carry the item of id 1 installs the mirror `[rA, rA]`, which has a
duplicate id — the code concatenates pages without any deduplication. -/
theorem C9_nodup_counterexample :
    fetchRepos st0 [Event.resp page1resp, Event.resp page2resp]
      = some { st0 with repos := [rA, rA], loading := false }
    ∧ ¬ idsNodup (DashSt.repos { st0 with repos := [rA, rA], loading := false }) := by
  constructor
  · decide
  · decide

/-- C7: changing any filter or sort criterion resets the page index to 1;
and the clamping effect brings any page index at least 1 back into the
range `[1, totalPages]` and is idempotent (so once the state settles,
`1 ≤ currentPageIndex ≤ totalPages` holds). -/
theorem C7_page_reset_and_clamp :
    (∀ (vs : ViewState) (c : Criterion), (applyCriterion vs c).currentPage = 1)
    ∧ (∀ (len page : Nat), 1 ≤ page →
        1 ≤ clampPage len page
        ∧ clampPage len page ≤ totalPagesOf len
        ∧ clampPage len (clampPage len page) = clampPage len page) := by
  constructor
  · intro vs c
    cases c <;> rfl
  · intro len page h1
    unfold clampPage totalPagesOf
    simp only [Nat.max_def]
    split_ifs <;> omega

/-- Witness for C7: a search change resets the page, and page 9 over 25
items clamps to page 3 = totalPages. -/
theorem C7_page_reset_and_clamp_witness :
    (applyCriterion vsNeutral (Criterion.search "x")).currentPage = 1
    ∧ (1 ≤ clampPage 25 9 ∧ clampPage 25 9 ≤ totalPagesOf 25
        ∧ clampPage 25 (clampPage 25 9) = clampPage 25 9) :=
  ⟨C7_page_reset_and_clamp.1 vsNeutral (Criterion.search "x"),
   C7_page_reset_and_clamp.2 25 9 (by decide)⟩

/-- C8: with page size 12, `totalPages` is `max 1 (ceil n / 12)`; page `p`
is exactly the slice of the filtered result from offset `(p-1)*12`, of
length `min 12 (n - (p-1)*12)`; and with 25 filtered items there are 3
pages and page 3 holds exactly one item. -/
theorem C8_pagination_slice (l : List Repo) (p : Nat) :
    totalPagesOf l.length = max 1 (ceilDiv l.length 12)
    ∧ paginatedRepos l p = (l.drop ((p - 1) * 12)).take 12
    ∧ (paginatedRepos l p).length = min 12 (l.length - (p - 1) * 12)
    ∧ (l.length = 25 →
        totalPagesOf l.length = 3 ∧ (paginatedRepos l 3).length = 1) := by
  refine ⟨rfl, rfl, ?_, ?_⟩
  · simp [paginatedRepos, REPOS_PER_PAGE]
  · intro h25
    constructor
    · rw [h25]
      decide
    · simp [paginatedRepos, REPOS_PER_PAGE, h25]

/-- Witness for C8 at a concrete 25-item list. -/
theorem C8_pagination_slice_witness :
    totalPagesOf (List.replicate 25 rA).length = 3
    ∧ (paginatedRepos (List.replicate 25 rA) 3).length = 1 :=
  (C8_pagination_slice (List.replicate 25 rA) 3).2.2.2 (by simp)

/-- Neutral view state with the search text "a " (trailing space). -/
def vsSearchPad : ViewState := { vsNeutral with searchQuery := "a " }

/-- Counterexample for C6 as stated: the code trims the search text before
matching, the spec pipeline matches `searchText` itself.  On the search
text "a " and the single item named "a", the code keeps the item while the
spec pipeline rejects it. -/
theorem C6_derive_counterexample :
    filteredRepos env0 [rA] vsSearchPad ≠ deriveSpec env0 [rA] vsSearchPad := by
  decide

/-- C6 (amended): the derived ordered result equals the reference pipeline
— text filter, visibility filter, derivation filter, language filter, then
the keyed stable sort — applied to the view state whose search text has
been trimmed of surrounding whitespace (the code applies `trim()` to
`searchQuery` before matching; everything else matches the spec's order and
semantics exactly, including that skipping the text filter on an empty
query is indistinguishable from filtering with the empty query). -/
theorem C6_derive_refinement (env : JsEnv) (repos : List Repo) (vs : ViewState) :
    filteredRepos env repos vs = deriveSpec env repos (vsTrim vs) := by
  have htext : (if (lowerChars (trimChars vs.searchQuery.data)).isEmpty then repos
      else repos.filter (matchesQuery (lowerChars (trimChars vs.searchQuery.data))))
      = repos.filter (matchesQuery (lowerChars (trimChars vs.searchQuery.data))) := by
    cases hq : lowerChars (trimChars vs.searchQuery.data) with
    | nil => simp [filter_matchesQuery_nil]
    | cons c cs => simp
  unfold filteredRepos deriveSpec applyFilters vsTrim
  dsimp only
  rw [htext]
